import Mathlib

/-!
# Snowflake identifier generator (package `generators`)

A shallow embedding of `snowflake.go`: the generator record, its two
constructors and `GetID`, with `uint64` arithmetic written out on `Nat`
(every wrapping operation carries its `% 2 ^ 64`).  The wall clock is an
argument: `now` stands for `uint64(time.Now().UnixNano())`.  A panic is the
result `none`; the state a panicking call leaves behind is returned with it.

The interface of `generator.go` and the registry of `manager.go` follow: the
registry's map holds interface values, which point to generator objects, so
`GetIDForRecordType` runs over the generator objects of the program, indexed
by address.
-/

namespace Generators

/-- Wrapping `uint64` subtraction `a - b`. -/
def sub64 (a b : Nat) : Nat :=
  (a % 2 ^ 64 + (2 ^ 64 - b % 2 ^ 64)) % 2 ^ 64

/-- The `uint64` left shift `x << s`: bits moved above bit 63 are dropped. -/
def shl64 (x s : Nat) : Nat :=
  (x * 2 ^ s) % 2 ^ 64

/-- The constant `MilliToNano`. -/
def MilliToNano : Nat := 1000000

/-- The struct `SnowflakeGenerator`, without its mutex (calls are modelled one
at a time, which is what the mutex enforces). -/
structure SnowflakeGenerator where
  epoch : Nat
  timestampBits : Nat
  machineBits : Nat
  machineID : Nat
  sequenceBits : Nat
  lastTimestamp : Nat
  sequence : Nat
  sequenceResetNano : Nat
deriving DecidableEq, Repr

/-- The constructor `NewSnowflakeGenerator`.  Its argument is the value that
`GenerateMachineID(machineBits)` returned; fields the composite literal leaves
out are zero. -/
def NewSnowflakeGenerator (generatedMachineID : Nat) : SnowflakeGenerator :=
  let machineBits := 10
  { epoch := 0
    timestampBits := 41
    machineBits := machineBits
    machineID := generatedMachineID
    sequenceBits := 12
    lastTimestamp := 0
    sequence := 0
    sequenceResetNano := MilliToNano }

/-- The constructor `NewSnowflakeGeneratorFromConfig`.  The composite literal
names five fields; `lastTimestamp`, `sequence` and `sequenceResetNano` are left
at their zero value. -/
def NewSnowflakeGeneratorFromConfig (epoch timestampBits machineBits machineID sequenceBits : Nat) :
    SnowflakeGenerator :=
  { epoch := epoch
    timestampBits := timestampBits
    machineBits := machineBits
    machineID := machineID
    sequenceBits := sequenceBits
    lastTimestamp := 0
    sequence := 0
    sequenceResetNano := 0 }

/-- Lines 82 to 86 of `GetID`: the id built from `timestampNano` and the
generator's machine id and (already updated) sequence. -/
def packID (sg : SnowflakeGenerator) (timestampNano : Nat) : Nat :=
  let id := timestampNano / MilliToNano
  let id := shl64 id sg.machineBits
  let id := id ||| sg.machineID
  let id := shl64 id sg.sequenceBits
  let id := id ||| sg.sequence
  id

/-- The method `GetID` at clock reading `now`.  The first component is the
returned id, or `none` for the panic "Sequence overflow"; the second is the
generator afterwards (a panic leaves the incremented sequence behind and does
not reach the assignment to `lastTimestamp`). -/
def GetID (sg : SnowflakeGenerator) (now : Nat) : Option Nat × SnowflakeGenerator :=
  let timestampNano := sub64 now sg.epoch
  if sub64 timestampNano sg.lastTimestamp ≥ sg.sequenceResetNano then
    let sg := { sg with sequence := 0 }
    let sg := { sg with lastTimestamp := timestampNano }
    (some (packID sg timestampNano), sg)
  else
    let sg := { sg with sequence := (sg.sequence + 1) % 2 ^ 64 }
    if sg.sequence ≥ shl64 1 sg.sequenceBits then
      (none, sg)
    else
      let sg := { sg with lastTimestamp := timestampNano }
      (some (packID sg timestampNano), sg)

/-- The generator after the calls of `GetID` at the clock readings `nows`, in
order. -/
def runState (sg : SnowflakeGenerator) : List Nat → SnowflakeGenerator
  | [] => sg
  | now :: rest => runState (GetID sg now).2 rest

/-- The results of the calls of `GetID` at the clock readings `nows`, in
order. -/
def runCalls (sg : SnowflakeGenerator) : List Nat → List (Option Nat)
  | [] => []
  | now :: rest => (GetID sg now).1 :: runCalls (GetID sg now).2 rest

/-- A value of the standard library type `context.Context`, as far as this
package looks at it (it never does). -/
structure Context where
  done : Bool
deriving DecidableEq, Repr

/-- The method `IsStateful` of `SnowflakeGenerator`. -/
def IsStateful (_sg : SnowflakeGenerator) : Bool :=
  false

/-- The method `GenerateIDs` of `SnowflakeGenerator`: the body is a single
`panic`; `Except.error` carries its message, `Except.ok` would be a normal
return with the generator afterwards. -/
def GenerateIDs (_sg : SnowflakeGenerator) (_ctx : Context) : Except String SnowflakeGenerator :=
  Except.error "SnowflakeGenerator.GenerateIDs should not be called."

/-- The method `SetState` of `SnowflakeGenerator`: the body is a single
`panic`, as in `GenerateIDs`. -/
def SetState (_sg : SnowflakeGenerator) (_s : Nat) : Except String SnowflakeGenerator :=
  Except.error "SnowflakeGenerator.SetState should not be called."

/-- The interface `Generator[T]`: an object with some state of its own and the
four methods.  `GetID` gets the clock reading of the call as an argument, as
the snowflake generator reads the clock; `none` is a panic. -/
structure Generator (T : Type) where
  State : Type
  state : State
  GetID : State → Nat → Option T × State
  IsStateful : State → Bool
  SetState : State → T → Except String State
  GenerateIDs : State → Context → Except String State

/-- A `*SnowflakeGenerator` seen through the interface `Generator[uint64]`. -/
def asGenerator (sg : SnowflakeGenerator) : Generator Nat :=
  { State := SnowflakeGenerator
    state := sg
    GetID := GetID
    IsStateful := IsStateful
    SetState := SetState
    GenerateIDs := GenerateIDs }

/-- How a call through the registry ends: with a value, with a panic raised in
the generator, or with the run-time panic of a method call on a nil interface
value. -/
inductive CallResult (T : Type) where
  | returned (v : T)
  | panicked
  | nilDereference
deriving DecidableEq, Repr

/-- The result of a generator's `GetID` as the caller of the registry sees
it. -/
def CallResult.ofGetID {T : Type} : Option T → CallResult T
  | some v => CallResult.returned v
  | none => CallResult.panicked

/-- The struct `Manager[T]`.  The map holds interface values: for a key that is
present, `none` is the nil interface and `some p` the generator object at
address `p`. -/
structure Manager (T : Type) where
  generators : String → Option (Option Nat)

/-- The constructor `NewManager`: an empty map. -/
def NewManager {T : Type} : Manager T :=
  { generators := fun _ => none }

/-- The map index expression `m.generators[recordType]` in its two-value form:
a missing key gives the zero value, the nil interface, and `false`. -/
def Manager.lookup {T : Type} (m : Manager T) (recordType : String) : Option Nat × Bool :=
  match m.generators recordType with
  | some generator => (generator, true)
  | none => (none, false)

/-- The method `GetIDForRecordType` at clock reading `now`, over the generator
objects `heap` of the program.  The body of `if !ok` is empty, so `ok` decides
nothing; the call `generator.GetID()` goes through whatever the lookup gave.
The second component is the generator objects afterwards. -/
def Manager.GetIDForRecordType {T : Type} (m : Manager T) (heap : Nat → Generator T)
    (recordType : String) (now : Nat) : CallResult T × (Nat → Generator T) :=
  let (generator, ok) := m.lookup recordType
  let _ : Unit := if !ok then () else ()
  match generator with
  | none => (CallResult.nilDereference, heap)
  | some p =>
    let r := (heap p).GetID (heap p).state now
    (CallResult.ofGetID r.1, Function.update heap p { heap p with state := r.2 })

/-! ## Unsigned 64-bit arithmetic, packing and single calls -/

theorem sub64_lt (a b : Nat) : sub64 a b < 2 ^ 64 := by
  unfold sub64; omega

theorem sub64_of_le {a b : Nat} (hb : b ≤ a) (ha : a < 2 ^ 64) : sub64 a b = a - b := by
  unfold sub64; omega

theorem sub64_eq_toNat (a b : Nat) :
    sub64 a b = (((a : Int) - (b : Int)) % 2 ^ 64).toNat := by
  unfold sub64; omega

theorem sub64_sub64_eq_toNat (a b c : Nat) :
    sub64 (sub64 a b) c = (((a : Int) - (b : Int) - (c : Int)) % 2 ^ 64).toNat := by
  unfold sub64; omega

theorem shl64_lt (x s : Nat) : shl64 x s < 2 ^ 64 := by
  unfold shl64; omega

theorem shl64_of_ge (x : Nat) {s : Nat} (hs : 64 ≤ s) : shl64 x s = 0 := by
  unfold shl64
  obtain ⟨k, rfl⟩ := Nat.exists_eq_add_of_le hs
  rw [Nat.pow_add, ← Nat.mul_assoc, Nat.mul_right_comm]
  exact Nat.mul_mod_left _ _

theorem shl64_one_of_lt {s : Nat} (hs : s < 64) : shl64 1 s = 2 ^ s := by
  unfold shl64
  rw [Nat.one_mul]
  exact Nat.mod_eq_of_lt (Nat.pow_lt_pow_right (by decide) hs)

/-- A left shift by at most 64 keeps the low `64 - s` bits of `x`, moved up. -/
theorem shl64_eq {x s : Nat} (hs : s ≤ 64) : shl64 x s = 2 ^ s * (x % 2 ^ (64 - s)) := by
  unfold shl64
  have h : (2 : Nat) ^ 64 = 2 ^ s * 2 ^ (64 - s) := by
    rw [← Nat.pow_add]; congr 1; omega
  rw [h, Nat.mul_comm x, Nat.mul_mod_mul_left]

theorem mul_add_mod_mul {m r : Nat} (hr : r < m) (A c : Nat) :
    (m * A + r) % (m * c) = m * (A % c) + r := by
  have hm : 0 < m := Nat.lt_of_le_of_lt (Nat.zero_le _) hr
  rw [Nat.mod_mul, Nat.mul_add_mod, Nat.mod_eq_of_lt hr, Nat.mul_add_div hm,
    Nat.div_eq_of_lt hr, Nat.add_zero, Nat.add_comm]

/-- Closed form of the packed id when the machine and sequence fields fit. -/
theorem packID_eq (sg : SnowflakeGenerator) (timestampNano : Nat)
    (hbits : sg.machineBits + sg.sequenceBits ≤ 64)
    (hmid : sg.machineID < 2 ^ sg.machineBits)
    (hseq : sg.sequence < 2 ^ sg.sequenceBits) :
    packID sg timestampNano =
      2 ^ sg.sequenceBits *
        (2 ^ sg.machineBits *
          ((timestampNano / MilliToNano) % 2 ^ (64 - sg.machineBits - sg.sequenceBits))
          + sg.machineID) + sg.sequence := by
  have hmb : sg.machineBits ≤ 64 := by omega
  have hsb : sg.sequenceBits ≤ 64 := by omega
  have hsplit : (2 : Nat) ^ (64 - sg.sequenceBits)
      = 2 ^ sg.machineBits * 2 ^ (64 - sg.machineBits - sg.sequenceBits) := by
    rw [← Nat.pow_add]; congr 1; omega
  have hdvd : (2 : Nat) ^ (64 - sg.machineBits - sg.sequenceBits) ∣ 2 ^ (64 - sg.machineBits) :=
    Nat.pow_dvd_pow 2 (by omega)
  unfold packID
  simp only []
  rw [shl64_eq hmb, ← Nat.mul_add_lt_is_or hmid, shl64_eq hsb, ← Nat.mul_add_lt_is_or hseq,
    hsplit, mul_add_mod_mul hmid, Nat.mod_mod_of_dvd _ hdvd]

theorem GetID_reset {sg : SnowflakeGenerator} {now : Nat}
    (h : sg.sequenceResetNano ≤ sub64 (sub64 now sg.epoch) sg.lastTimestamp) :
    GetID sg now =
      (some (packID { sg with sequence := 0, lastTimestamp := sub64 now sg.epoch }
          (sub64 now sg.epoch)),
        { sg with sequence := 0, lastTimestamp := sub64 now sg.epoch }) := by
  unfold GetID
  simp only [ge_iff_le, h, if_true]

theorem GetID_overflow {sg : SnowflakeGenerator} {now : Nat}
    (h : sub64 (sub64 now sg.epoch) sg.lastTimestamp < sg.sequenceResetNano)
    (hs : shl64 1 sg.sequenceBits ≤ (sg.sequence + 1) % 2 ^ 64) :
    GetID sg now = (none, { sg with sequence := (sg.sequence + 1) % 2 ^ 64 }) := by
  unfold GetID
  simp only [ge_iff_le, Nat.not_le.mpr h, if_false, hs, if_true]

theorem GetID_incr {sg : SnowflakeGenerator} {now : Nat}
    (h : sub64 (sub64 now sg.epoch) sg.lastTimestamp < sg.sequenceResetNano)
    (hs : (sg.sequence + 1) % 2 ^ 64 < shl64 1 sg.sequenceBits) :
    GetID sg now =
      (some (packID { sg with sequence := (sg.sequence + 1) % 2 ^ 64,
                              lastTimestamp := sub64 now sg.epoch } (sub64 now sg.epoch)),
        { sg with sequence := (sg.sequence + 1) % 2 ^ 64,
                  lastTimestamp := sub64 now sg.epoch }) := by
  unfold GetID
  simp only [ge_iff_le, Nat.not_le.mpr h, if_false, Nat.not_le.mpr hs]

/-- The three ways a call of `GetID` can go. -/
theorem GetID_cases (sg : SnowflakeGenerator) (now : Nat) :
    (sg.sequenceResetNano ≤ sub64 (sub64 now sg.epoch) sg.lastTimestamp ∧
      GetID sg now =
        (some (packID { sg with sequence := 0, lastTimestamp := sub64 now sg.epoch }
            (sub64 now sg.epoch)),
          { sg with sequence := 0, lastTimestamp := sub64 now sg.epoch })) ∨
    (sub64 (sub64 now sg.epoch) sg.lastTimestamp < sg.sequenceResetNano ∧
      shl64 1 sg.sequenceBits ≤ (sg.sequence + 1) % 2 ^ 64 ∧
      GetID sg now = (none, { sg with sequence := (sg.sequence + 1) % 2 ^ 64 })) ∨
    (sub64 (sub64 now sg.epoch) sg.lastTimestamp < sg.sequenceResetNano ∧
      (sg.sequence + 1) % 2 ^ 64 < shl64 1 sg.sequenceBits ∧
      GetID sg now =
        (some (packID { sg with sequence := (sg.sequence + 1) % 2 ^ 64,
                                lastTimestamp := sub64 now sg.epoch } (sub64 now sg.epoch)),
          { sg with sequence := (sg.sequence + 1) % 2 ^ 64,
                    lastTimestamp := sub64 now sg.epoch })) := by
  rcases Nat.lt_or_ge (sub64 (sub64 now sg.epoch) sg.lastTimestamp) sg.sequenceResetNano with h | h
  · rcases Nat.lt_or_ge ((sg.sequence + 1) % 2 ^ 64) (shl64 1 sg.sequenceBits) with hs | hs
    · exact Or.inr (Or.inr ⟨h, hs, GetID_incr h hs⟩)
    · exact Or.inr (Or.inl ⟨h, hs, GetID_overflow h hs⟩)
  · exact Or.inl ⟨h, GetID_reset h⟩

/-- A returned id is packed from the state the call leaves behind. -/
theorem GetID_some_eq_packID {sg : SnowflakeGenerator} {now id : Nat}
    (hret : (GetID sg now).1 = some id) :
    id = packID (GetID sg now).2 (sub64 now sg.epoch) := by
  rcases GetID_cases sg now with ⟨_, h⟩ | ⟨_, _, h⟩ | ⟨_, _, h⟩
  · rw [h] at hret ⊢; exact (Option.some.inj hret).symm
  · rw [h] at hret; exact absurd hret (by simp)
  · rw [h] at hret ⊢; exact (Option.some.inj hret).symm

/-- A call leaves the configuration fields as they were. -/
theorem GetID_config (sg : SnowflakeGenerator) (now : Nat) :
    (GetID sg now).2.epoch = sg.epoch ∧
    (GetID sg now).2.timestampBits = sg.timestampBits ∧
    (GetID sg now).2.machineBits = sg.machineBits ∧
    (GetID sg now).2.machineID = sg.machineID ∧
    (GetID sg now).2.sequenceBits = sg.sequenceBits ∧
    (GetID sg now).2.sequenceResetNano = sg.sequenceResetNano := by
  rcases GetID_cases sg now with ⟨_, h⟩ | ⟨_, _, h⟩ | ⟨_, _, h⟩ <;> rw [h] <;> simp

/-- The sequence a returning call stores fits the sequence field. -/
theorem GetID_some_sequence_lt {sg : SnowflakeGenerator} {now id : Nat}
    (hret : (GetID sg now).1 = some id) :
    (GetID sg now).2.sequence < 2 ^ sg.sequenceBits := by
  rcases GetID_cases sg now with ⟨_, h⟩ | ⟨_, _, h⟩ | ⟨_, hs, h⟩
  · rw [h]; exact Nat.two_pow_pos _
  · rw [h] at hret; exact absurd hret (by simp)
  · rw [h]
    rcases Nat.lt_or_ge sg.sequenceBits 64 with hlt | hge
    · rw [shl64_one_of_lt hlt] at hs; exact hs
    · rw [shl64_of_ge 1 hge] at hs; exact absurd hs (Nat.not_lt_zero _)

/-- Reversing the pack operation on the closed form of `packID`. -/
theorem packID_decode (sg : SnowflakeGenerator) (timestampNano : Nat)
    (hbits : sg.machineBits + sg.sequenceBits ≤ 64)
    (hmid : sg.machineID < 2 ^ sg.machineBits)
    (hseq : sg.sequence < 2 ^ sg.sequenceBits) :
    packID sg timestampNano % 2 ^ sg.sequenceBits = sg.sequence ∧
    (packID sg timestampNano / 2 ^ sg.sequenceBits) % 2 ^ sg.machineBits = sg.machineID ∧
    packID sg timestampNano / 2 ^ (sg.machineBits + sg.sequenceBits) =
      (timestampNano / MilliToNano) % 2 ^ (64 - sg.machineBits - sg.sequenceBits) := by
  have hdiv : packID sg timestampNano / 2 ^ sg.sequenceBits =
      2 ^ sg.machineBits *
          ((timestampNano / MilliToNano) % 2 ^ (64 - sg.machineBits - sg.sequenceBits))
        + sg.machineID := by
    rw [packID_eq sg timestampNano hbits hmid hseq, Nat.mul_add_div (Nat.two_pow_pos _),
      Nat.div_eq_of_lt hseq, Nat.add_zero]
  refine ⟨?_, ?_, ?_⟩
  · rw [packID_eq sg timestampNano hbits hmid hseq, Nat.mul_add_mod, Nat.mod_eq_of_lt hseq]
  · rw [hdiv, Nat.mul_add_mod, Nat.mod_eq_of_lt hmid]
  · rw [Nat.add_comm sg.machineBits, Nat.pow_add, ← Nat.div_div_eq_div_mul, hdiv,
      Nat.mul_add_div (Nat.two_pow_pos _), Nat.div_eq_of_lt hmid, Nat.add_zero]

theorem runCalls_cons (sg : SnowflakeGenerator) (now : Nat) (rest : List Nat) :
    runCalls sg (now :: rest) = (GetID sg now).1 :: runCalls (GetID sg now).2 rest := rfl

theorem getElem?_runCalls_cons_succ (sg : SnowflakeGenerator) (now : Nat) (rest : List Nat)
    (k : Nat) :
    (runCalls sg (now :: rest))[k + 1]? = (runCalls (GetID sg now).2 rest)[k]? := by
  rw [runCalls_cons, List.getElem?_cons_succ]

theorem runCalls_append (l₁ : List Nat) :
    ∀ (sg : SnowflakeGenerator) (l₂ : List Nat),
      runCalls sg (l₁ ++ l₂) = runCalls sg l₁ ++ runCalls (runState sg l₁) l₂ := by
  induction l₁ with
  | nil => intro sg l₂; rfl
  | cons x xs ih =>
    intro sg l₂
    rw [List.cons_append, runCalls_cons, runCalls_cons, ih (GetID sg x).2 l₂]
    rfl

/-- While no call panics, the stored sequence stays below `2^sequenceBits`. -/
theorem runState_sequence_lt (nows : List Nat) :
    ∀ sg : SnowflakeGenerator,
      sg.sequence < 2 ^ sg.sequenceBits → none ∉ runCalls sg nows →
      (runState sg nows).sequence < 2 ^ sg.sequenceBits := by
  induction nows with
  | nil => intro sg h _; exact h
  | cons x xs ih =>
    intro sg _ hnp
    rw [runCalls_cons, List.mem_cons, not_or] at hnp
    cases hres : (GetID sg x).1 with
    | none => exact absurd hres.symm hnp.1
    | some id =>
      have h1 := GetID_some_sequence_lt hres
      have h2 := ih (GetID sg x).2 (by rw [(GetID_config sg x).2.2.2.2.1]; exact h1) hnp.2
      rw [(GetID_config sg x).2.2.2.2.1] at h2
      exact h2

/-- The closed form of an id with millisecond timestamp `T` and sequence `s`
is strictly increasing in the pair `(T, s)` ordered lexicographically. -/
theorem closedForm_lt {sb mb mid T s T' s' : Nat} (hmid : mid < 2 ^ mb) (hs : s < 2 ^ sb)
    (hlex : T < T' ∨ (T ≤ T' ∧ s < s')) :
    2 ^ sb * (2 ^ mb * T + mid) + s < 2 ^ sb * (2 ^ mb * T' + mid) + s' := by
  rcases hlex with hT | ⟨hT, hss⟩
  · have h1 : 2 ^ mb * (T + 1) ≤ 2 ^ mb * T' := Nat.mul_le_mul_left _ hT
    have h2 : 2 ^ sb * (2 ^ mb * T + mid + 1) ≤ 2 ^ sb * (2 ^ mb * T' + mid) :=
      Nat.mul_le_mul_left _ (by rw [Nat.mul_add, Nat.mul_one] at h1; omega)
    rw [Nat.mul_add, Nat.mul_one] at h2
    omega
  · have h1 : 2 ^ mb * T ≤ 2 ^ mb * T' := Nat.mul_le_mul_left _ hT
    have h2 : 2 ^ sb * (2 ^ mb * T + mid) ≤ 2 ^ sb * (2 ^ mb * T' + mid) :=
      Nat.mul_le_mul_left _ (by omega)
    omega

/-- With a reset interval of at least one millisecond, every id returned after
a state lies lexicographically above that state's `(lastTimestamp / 1e6,
sequence)`, as long as the clock does not go back and the sequence counter
cannot wrap at `2^64`: either the calls are fewer than `2^64`, or none of them
panics (then the sequence stays below `2^sequenceBits`). -/
theorem runCalls_strict_lex (rest : List Nat) :
    ∀ (sg : SnowflakeGenerator) (lo : Nat),
      sg.machineBits + sg.sequenceBits ≤ 64 →
      sg.machineID < 2 ^ sg.machineBits →
      MilliToNano ≤ sg.sequenceResetNano →
      sg.epoch ≤ lo → lo < 2 ^ 64 → sg.lastTimestamp = lo - sg.epoch →
      List.Pairwise (· ≤ ·) (lo :: rest) →
      (∀ x ∈ rest, x < 2 ^ 64) →
      (∀ x ∈ rest, (x - sg.epoch) / MilliToNano < 2 ^ (64 - sg.machineBits - sg.sequenceBits)) →
      (sg.sequence + rest.length < 2 ^ 64 ∨
        (sg.sequence < 2 ^ sg.sequenceBits ∧ none ∉ runCalls sg rest)) →
      ∀ b, some b ∈ runCalls sg rest →
        ∃ T s, b = 2 ^ sg.sequenceBits * (2 ^ sg.machineBits * T + sg.machineID) + s ∧
          s < 2 ^ sg.sequenceBits ∧
          ((lo - sg.epoch) / MilliToNano < T ∨
            ((lo - sg.epoch) / MilliToNano ≤ T ∧ sg.sequence < s)) := by
  induction rest with
  | nil => intro sg lo _ _ _ _ _ _ _ _ _ _ b hb; simp [runCalls] at hb
  | cons x xs ih =>
    intro sg lo hbits hmid hr hlo hlo64 hlast hsorted htyp hfit hsafe b hb
    have hlox : lo ≤ x := List.rel_of_pairwise_cons hsorted (List.mem_cons_self _ _)
    have hx64 : x < 2 ^ 64 := htyp x (List.mem_cons_self _ _)
    have hτ : sub64 x sg.epoch = x - sg.epoch := sub64_of_le (Nat.le_trans hlo hlox) hx64
    have hgap : sub64 (sub64 x sg.epoch) sg.lastTimestamp = x - lo := by
      rw [hτ, hlast, sub64_of_le (by omega) (by omega)]; omega
    have hxs : List.Pairwise (· ≤ ·) (x :: xs) := hsorted.of_cons
    have hlen : (x :: xs).length = xs.length + 1 := List.length_cons _ _
    have hfitx := hfit x (List.mem_cons_self _ _)
    rw [runCalls_cons, List.mem_cons] at hb
    rw [runCalls_cons, List.mem_cons, not_or] at hsafe
    rcases GetID_cases sg x with ⟨hg, h⟩ | ⟨hg, hs, h⟩ | ⟨hg, hs, h⟩
    · -- the sequence is reset: the millisecond timestamp has moved on
      rw [hgap] at hg
      have hms : (lo - sg.epoch) / MilliToNano < (x - sg.epoch) / MilliToNano := by
        unfold MilliToNano at hr ⊢; omega
      rw [h, hτ] at hb hsafe
      dsimp only at hb hsafe
      rcases hb with hb | hb
      · refine ⟨(x - sg.epoch) / MilliToNano, 0, ?_, Nat.two_pow_pos _, Or.inl hms⟩
        rw [Option.some.inj hb,
          packID_eq { sg with sequence := 0, lastTimestamp := x - sg.epoch } _ hbits hmid
            (Nat.two_pow_pos _)]
        dsimp only
        rw [Nat.mod_eq_of_lt hfitx]
      · obtain ⟨T, s, hbeq, hslt, hlex⟩ :=
          ih { sg with sequence := 0, lastTimestamp := x - sg.epoch } x hbits hmid hr
            (Nat.le_trans hlo hlox) hx64 rfl hxs
            (fun y hy => htyp y (List.mem_cons_of_mem _ hy))
            (fun y hy => hfit y (List.mem_cons_of_mem _ hy))
            (by
              dsimp only
              rcases hsafe with hw | ⟨_, _, hnp⟩
              · exact Or.inl (by omega)
              · exact Or.inr ⟨Nat.two_pow_pos _, hnp⟩) b hb
        dsimp only at hbeq hslt hlex
        exact ⟨T, s, hbeq, hslt, Or.inl (by omega)⟩
    · -- the call panics: the sequence grows, the timestamp stays
      rw [h] at hb hsafe
      dsimp only at hb hsafe
      rcases hsafe with hw | ⟨_, hne, _⟩
      · have hnowrap : (sg.sequence + 1) % 2 ^ 64 = sg.sequence + 1 :=
          Nat.mod_eq_of_lt (by omega)
        rw [hnowrap] at hb
        rcases hb with hb | hb
        · exact absurd hb (by simp)
        · have hsorted' : List.Pairwise (· ≤ ·) (lo :: xs) :=
            hsorted.sublist (List.Sublist.cons₂ _ (List.sublist_cons_self _ _))
          obtain ⟨T, s, hbeq, hslt, hlex⟩ :=
            ih { sg with sequence := sg.sequence + 1 } lo hbits hmid hr hlo hlo64 hlast hsorted'
              (fun y hy => htyp y (List.mem_cons_of_mem _ hy))
              (fun y hy => hfit y (List.mem_cons_of_mem _ hy))
              (Or.inl (by dsimp only; omega)) b hb
          dsimp only at hbeq hslt hlex
          exact ⟨T, s, hbeq, hslt, by omega⟩
      · exact absurd rfl hne
    · -- the sequence is incremented
      have hsb : sg.sequenceBits < 64 := by
        rcases Nat.lt_or_ge sg.sequenceBits 64 with hlt | hge
        · exact hlt
        · rw [shl64_of_ge 1 hge] at hs; exact absurd hs (Nat.not_lt_zero _)
      have hpow : (2 : Nat) ^ sg.sequenceBits < 2 ^ 64 := Nat.pow_lt_pow_right (by decide) hsb
      have hnowrap : (sg.sequence + 1) % 2 ^ 64 = sg.sequence + 1 := by
        rcases hsafe with hw | ⟨hslt, _⟩
        · exact Nat.mod_eq_of_lt (by omega)
        · exact Nat.mod_eq_of_lt (by omega)
      have hs' : sg.sequence + 1 < 2 ^ sg.sequenceBits := by
        rw [hnowrap, shl64_one_of_lt hsb] at hs; exact hs
      have hms : (lo - sg.epoch) / MilliToNano ≤ (x - sg.epoch) / MilliToNano :=
        Nat.div_le_div_right (Nat.sub_le_sub_right hlox _)
      rw [h, hτ, hnowrap] at hb hsafe
      dsimp only at hb hsafe
      rcases hb with hb | hb
      · refine ⟨(x - sg.epoch) / MilliToNano, sg.sequence + 1, ?_, hs', Or.inr ⟨hms, by omega⟩⟩
        rw [Option.some.inj hb,
          packID_eq { sg with sequence := sg.sequence + 1, lastTimestamp := x - sg.epoch } _
            hbits hmid hs']
        dsimp only
        rw [Nat.mod_eq_of_lt hfitx]
      · obtain ⟨T, s, hbeq, hslt, hlex⟩ :=
          ih { sg with sequence := sg.sequence + 1, lastTimestamp := x - sg.epoch } x
            hbits hmid hr (Nat.le_trans hlo hlox) hx64 rfl hxs
            (fun y hy => htyp y (List.mem_cons_of_mem _ hy))
            (fun y hy => hfit y (List.mem_cons_of_mem _ hy))
            (by
              dsimp only
              rcases hsafe with hw | ⟨_, _, hnp⟩
              · exact Or.inl (by omega)
              · exact Or.inr ⟨hs', hnp⟩) b hb
        dsimp only at hbeq hslt hlex
        exact ⟨T, s, hbeq, hslt, by omega⟩

/-- With a reset interval of at least one millisecond, an id returned by a call
is strictly below every id returned by a later call, as long as the clock does
not go back and the sequence counter cannot wrap at `2^64` (fewer than `2^64`
calls, or no panic among them). -/
theorem getID_lt_later (sg : SnowflakeGenerator) (t : Nat) (rest : List Nat) (a b : Nat)
    (hbits : sg.machineBits + sg.sequenceBits ≤ 64)
    (hmid : sg.machineID < 2 ^ sg.machineBits)
    (hr : MilliToNano ≤ sg.sequenceResetNano)
    (he : sg.epoch ≤ t)
    (hsorted : List.Pairwise (· ≤ ·) (t :: rest))
    (htyp : ∀ x ∈ t :: rest, x < 2 ^ 64)
    (hfit : ∀ x ∈ t :: rest,
      (x - sg.epoch) / MilliToNano < 2 ^ (64 - sg.machineBits - sg.sequenceBits))
    (hsafe : sg.sequence + rest.length + 1 < 2 ^ 64 ∨
      (sg.sequence < 2 ^ sg.sequenceBits ∧ none ∉ runCalls (GetID sg t).2 rest))
    (ha : (GetID sg t).1 = some a)
    (hb : some b ∈ runCalls (GetID sg t).2 rest) : a < b := by
  have ht64 : t < 2 ^ 64 := htyp t (List.mem_cons_self _ _)
  have hτ : sub64 t sg.epoch = t - sg.epoch := sub64_of_le he ht64
  have hfitt := hfit t (List.mem_cons_self _ _)
  rcases GetID_cases sg t with ⟨_, h⟩ | ⟨_, _, h⟩ | ⟨_, hs, h⟩
  · rw [h, hτ] at ha hb hsafe
    dsimp only at ha hb hsafe
    obtain ⟨T, s, hbeq, _, hlex⟩ :=
      runCalls_strict_lex rest { sg with sequence := 0, lastTimestamp := t - sg.epoch } t
        hbits hmid hr he ht64 rfl hsorted
        (fun y hy => htyp y (List.mem_cons_of_mem _ hy))
        (fun y hy => hfit y (List.mem_cons_of_mem _ hy))
        (by
          dsimp only
          rcases hsafe with hw | ⟨_, hnp⟩
          · exact Or.inl (by omega)
          · exact Or.inr ⟨Nat.two_pow_pos _, hnp⟩) b hb
    dsimp only at hbeq hlex
    rw [← Option.some.inj ha,
      packID_eq { sg with sequence := 0, lastTimestamp := t - sg.epoch } _ hbits hmid
        (Nat.two_pow_pos _), hbeq]
    dsimp only
    rw [Nat.mod_eq_of_lt hfitt]
    exact closedForm_lt hmid (Nat.two_pow_pos _) hlex
  · rw [h] at ha; exact absurd ha (by simp)
  · have hsb : sg.sequenceBits < 64 := by
      rcases Nat.lt_or_ge sg.sequenceBits 64 with hlt | hge
      · exact hlt
      · rw [shl64_of_ge 1 hge] at hs; exact absurd hs (Nat.not_lt_zero _)
    have hpow : (2 : Nat) ^ sg.sequenceBits < 2 ^ 64 := Nat.pow_lt_pow_right (by decide) hsb
    have hnowrap : (sg.sequence + 1) % 2 ^ 64 = sg.sequence + 1 := by
      rcases hsafe with hw | ⟨hslt, _⟩
      · exact Nat.mod_eq_of_lt (by omega)
      · exact Nat.mod_eq_of_lt (by omega)
    have hs' : sg.sequence + 1 < 2 ^ sg.sequenceBits := by
      rw [hnowrap, shl64_one_of_lt hsb] at hs; exact hs
    rw [h, hτ, hnowrap] at ha hb hsafe
    dsimp only at ha hb hsafe
    obtain ⟨T, s, hbeq, _, hlex⟩ :=
      runCalls_strict_lex rest
        { sg with sequence := sg.sequence + 1, lastTimestamp := t - sg.epoch } t
        hbits hmid hr he ht64 rfl hsorted
        (fun y hy => htyp y (List.mem_cons_of_mem _ hy))
        (fun y hy => hfit y (List.mem_cons_of_mem _ hy))
        (by
          dsimp only
          rcases hsafe with hw | ⟨_, hnp⟩
          · exact Or.inl (by omega)
          · exact Or.inr ⟨hs', hnp⟩) b hb
    dsimp only at hbeq hlex
    rw [← Option.some.inj ha,
      packID_eq { sg with sequence := sg.sequence + 1, lastTimestamp := t - sg.epoch } _
        hbits hmid hs', hbeq]
    dsimp only
    rw [Nat.mod_eq_of_lt hfitt]
    exact closedForm_lt hmid hs' hlex

/-- With a reset interval of zero every call resets the sequence: each returned
id has sequence `0` and a millisecond timestamp not below the earlier ones. -/
theorem runCalls_zero_interval (rest : List Nat) :
    ∀ (sg : SnowflakeGenerator) (lo : Nat),
      sg.machineBits + sg.sequenceBits ≤ 64 →
      sg.machineID < 2 ^ sg.machineBits →
      sg.sequenceResetNano = 0 →
      sg.epoch ≤ lo →
      List.Pairwise (· ≤ ·) (lo :: rest) →
      (∀ x ∈ rest, x < 2 ^ 64) →
      (∀ x ∈ rest, (x - sg.epoch) / MilliToNano < 2 ^ (64 - sg.machineBits - sg.sequenceBits)) →
      ∀ b, some b ∈ runCalls sg rest →
        ∃ T, b = 2 ^ sg.sequenceBits * (2 ^ sg.machineBits * T + sg.machineID) ∧
          (lo - sg.epoch) / MilliToNano ≤ T := by
  induction rest with
  | nil => intro sg lo _ _ _ _ _ _ _ b hb; simp [runCalls] at hb
  | cons x xs ih =>
    intro sg lo hbits hmid hr hlo hsorted htyp hfit b hb
    have hlox : lo ≤ x := List.rel_of_pairwise_cons hsorted (List.mem_cons_self _ _)
    have hx64 : x < 2 ^ 64 := htyp x (List.mem_cons_self _ _)
    have hτ : sub64 x sg.epoch = x - sg.epoch := sub64_of_le (Nat.le_trans hlo hlox) hx64
    have hms : (lo - sg.epoch) / MilliToNano ≤ (x - sg.epoch) / MilliToNano :=
      Nat.div_le_div_right (Nat.sub_le_sub_right hlox _)
    simp only [runCalls, List.mem_cons] at hb
    rw [GetID_reset (by rw [hr]; exact Nat.zero_le _), hτ] at hb
    dsimp only at hb
    rcases hb with hb | hb
    · refine ⟨(x - sg.epoch) / MilliToNano, ?_, hms⟩
      rw [Option.some.inj hb,
        packID_eq { sg with sequence := 0, lastTimestamp := x - sg.epoch } _ hbits hmid
          (Nat.two_pow_pos _)]
      dsimp only
      rw [Nat.mod_eq_of_lt (hfit x (List.mem_cons_self _ _)), Nat.add_zero]
    · obtain ⟨T, hbeq, hle⟩ :=
        ih { sg with sequence := 0, lastTimestamp := x - sg.epoch } x hbits hmid hr
          (Nat.le_trans hlo hlox) hsorted.of_cons
          (fun y hy => htyp y (List.mem_cons_of_mem _ hy))
          (fun y hy => hfit y (List.mem_cons_of_mem _ hy)) b hb
      dsimp only at hbeq hle
      exact ⟨T, hbeq, Nat.le_trans hms hle⟩

/-- With a reset interval of zero, an id returned by a call is at most every
id returned by a later call when the clock does not go back. -/
theorem getID_le_later_zero (sg : SnowflakeGenerator) (t : Nat) (rest : List Nat) (a b : Nat)
    (hbits : sg.machineBits + sg.sequenceBits ≤ 64)
    (hmid : sg.machineID < 2 ^ sg.machineBits)
    (hr : sg.sequenceResetNano = 0)
    (he : sg.epoch ≤ t)
    (hsorted : List.Pairwise (· ≤ ·) (t :: rest))
    (htyp : ∀ x ∈ t :: rest, x < 2 ^ 64)
    (hfit : ∀ x ∈ t :: rest,
      (x - sg.epoch) / MilliToNano < 2 ^ (64 - sg.machineBits - sg.sequenceBits))
    (ha : (GetID sg t).1 = some a)
    (hb : some b ∈ runCalls (GetID sg t).2 rest) : a ≤ b := by
  have ht64 : t < 2 ^ 64 := htyp t (List.mem_cons_self _ _)
  have hτ : sub64 t sg.epoch = t - sg.epoch := sub64_of_le he ht64
  rw [GetID_reset (by rw [hr]; exact Nat.zero_le _), hτ] at ha hb
  dsimp only at ha hb
  obtain ⟨T, hbeq, hle⟩ :=
    runCalls_zero_interval rest { sg with sequence := 0, lastTimestamp := t - sg.epoch } t
      hbits hmid hr he hsorted
      (fun y hy => htyp y (List.mem_cons_of_mem _ hy))
      (fun y hy => hfit y (List.mem_cons_of_mem _ hy)) b hb
  dsimp only at hbeq hle
  rw [← Option.some.inj ha,
    packID_eq { sg with sequence := 0, lastTimestamp := t - sg.epoch } _ hbits hmid
      (Nat.two_pow_pos _), hbeq]
  dsimp only
  rw [Nat.mod_eq_of_lt (hfit t (List.mem_cons_self _ _)), Nat.add_zero]
  exact Nat.mul_le_mul_left _ (Nat.add_le_add_right (Nat.mul_le_mul_left _ hle) _)

/-- Calls leave the configuration fields as they were. -/
theorem runState_config (nows : List Nat) :
    ∀ sg : SnowflakeGenerator,
      (runState sg nows).epoch = sg.epoch ∧
      (runState sg nows).timestampBits = sg.timestampBits ∧
      (runState sg nows).machineBits = sg.machineBits ∧
      (runState sg nows).machineID = sg.machineID ∧
      (runState sg nows).sequenceBits = sg.sequenceBits ∧
      (runState sg nows).sequenceResetNano = sg.sequenceResetNano := by
  induction nows with
  | nil => intro sg; exact ⟨rfl, rfl, rfl, rfl, rfl, rfl⟩
  | cons x xs ih =>
    intro sg
    obtain ⟨h1, h2, h3, h4, h5, h6⟩ := ih (GetID sg x).2
    obtain ⟨g1, g2, g3, g4, g5, g6⟩ := GetID_config sg x
    simp only [runState]
    exact ⟨h1.trans g1, h2.trans g2, h3.trans g3, h4.trans g4, h5.trans g5, h6.trans g6⟩

/-- One call raises the stored sequence by at most one. -/
theorem GetID_sequence_le (sg : SnowflakeGenerator) (now : Nat) :
    (GetID sg now).2.sequence ≤ sg.sequence + 1 := by
  rcases GetID_cases sg now with ⟨_, h⟩ | ⟨_, _, h⟩ | ⟨_, _, h⟩ <;> rw [h] <;> dsimp only
  · exact Nat.zero_le _
  · exact Nat.mod_le _ _
  · exact Nat.mod_le _ _

/-- The stored sequence never exceeds the number of calls made. -/
theorem runState_sequence_le (nows : List Nat) :
    ∀ sg : SnowflakeGenerator, (runState sg nows).sequence ≤ sg.sequence + nows.length := by
  induction nows with
  | nil => intro sg; exact Nat.le_refl _
  | cons x xs ih =>
    intro sg
    have h1 := ih (GetID sg x).2
    have h2 := GetID_sequence_le sg x
    simp only [runState, List.length_cons]
    omega

/-- The low `sequenceBits` bits of a packed id are the sequence, whatever the
machine id is. -/
theorem packID_mod (sg : SnowflakeGenerator) (timestampNano : Nat)
    (hsb : sg.sequenceBits ≤ 64) (hseq : sg.sequence < 2 ^ sg.sequenceBits) :
    packID sg timestampNano % 2 ^ sg.sequenceBits = sg.sequence := by
  unfold packID
  simp only []
  rw [shl64_eq hsb, ← Nat.mul_add_lt_is_or hseq, Nat.mul_add_mod, Nat.mod_eq_of_lt hseq]

/-- A run of calls each less than the reset interval after the reading before
it: the sequence goes up by one per call, each call returns while the sequence
stays below `2^sequenceBits`, and the call that brings it to `2^sequenceBits`
panics. -/
theorem runCalls_short_gaps (nows : List Nat) :
    ∀ (sg : SnowflakeGenerator) (lo : Nat),
      sg.sequenceBits < 64 →
      sg.epoch ≤ lo → lo < 2 ^ 64 → sg.lastTimestamp = lo - sg.epoch →
      List.Chain (fun p q => p ≤ q ∧ q < p + sg.sequenceResetNano) lo nows →
      (∀ x ∈ nows, x < 2 ^ 64) →
      ∀ k, k < nows.length →
        (sg.sequence + k + 1 < 2 ^ sg.sequenceBits →
          ∃ id, (runCalls sg nows)[k]? = some (some id) ∧
            id % 2 ^ sg.sequenceBits = sg.sequence + k + 1) ∧
        (sg.sequence + k + 1 = 2 ^ sg.sequenceBits → (runCalls sg nows)[k]? = some none) := by
  induction nows with
  | nil => intro sg lo _ _ _ _ _ _ k hk; exact absurd hk (Nat.not_lt_zero _)
  | cons x xs ih =>
    intro sg lo hsb hlo hlo64 hlast hchain htyp k hk
    obtain ⟨⟨hlox, hxlo⟩, hchain'⟩ := List.chain_cons.mp hchain
    have hx64 : x < 2 ^ 64 := htyp x (List.mem_cons_self _ _)
    have hτ : sub64 x sg.epoch = x - sg.epoch := sub64_of_le (Nat.le_trans hlo hlox) hx64
    have hgap : sub64 (sub64 x sg.epoch) sg.lastTimestamp < sg.sequenceResetNano := by
      rw [hτ, hlast, sub64_of_le (by omega) (by omega)]; omega
    have hpow : (2 : Nat) ^ sg.sequenceBits < 2 ^ 64 := Nat.pow_lt_pow_right (by decide) hsb
    rcases Nat.lt_or_ge (sg.sequence + 1) (2 ^ sg.sequenceBits) with hs | hs
    · -- the call increments the sequence and returns
      have hnowrap : (sg.sequence + 1) % 2 ^ 64 = sg.sequence + 1 :=
        Nat.mod_eq_of_lt (by omega)
      have h := GetID_incr hgap (by rw [hnowrap, shl64_one_of_lt hsb]; exact hs)
      rw [hτ, hnowrap] at h
      cases k with
      | zero =>
        refine ⟨fun _ => ⟨packID
            { sg with sequence := sg.sequence + 1, lastTimestamp := x - sg.epoch }
            (x - sg.epoch), by simp only [runCalls, h, List.getElem?_cons_zero], ?_⟩,
          fun heq => absurd heq (by omega)⟩
        exact packID_mod { sg with sequence := sg.sequence + 1, lastTimestamp := x - sg.epoch } _
          (Nat.le_of_lt hsb) hs
      | succ j =>
        have hj : j < xs.length := by simpa using hk
        have hrec := ih { sg with sequence := sg.sequence + 1, lastTimestamp := x - sg.epoch } x
          hsb (Nat.le_trans hlo hlox) hx64 rfl hchain'
          (fun y hy => htyp y (List.mem_cons_of_mem _ hy)) j hj
        dsimp only at hrec
        simp only [runCalls, h, List.getElem?_cons_succ]
        refine ⟨fun hlt => ?_, fun heq => ?_⟩
        · obtain ⟨id, h1, h2⟩ := hrec.1 (by omega)
          exact ⟨id, h1, by omega⟩
        · exact hrec.2 (by omega)
    · -- the sequence is exhausted: only the call that reaches the bound is determined
      cases k with
      | zero =>
        refine ⟨fun hlt => absurd hlt (by omega), fun heq => ?_⟩
        have hnowrap : (sg.sequence + 1) % 2 ^ 64 = sg.sequence + 1 :=
          Nat.mod_eq_of_lt (by omega)
        have h := GetID_overflow hgap (by rw [hnowrap, shl64_one_of_lt hsb]; exact hs)
        simp only [runCalls, h, List.getElem?_cons_zero]
      | succ j => exact ⟨fun hlt => absurd hlt (by omega), fun heq => absurd heq (by omega)⟩

/-- A stored sequence is a `uint64` after any call. -/
theorem GetID_sequence_lt (sg : SnowflakeGenerator) (now : Nat) :
    (GetID sg now).2.sequence < 2 ^ 64 := by
  rcases GetID_cases sg now with ⟨_, h⟩ | ⟨_, _, h⟩ | ⟨_, _, h⟩ <;> rw [h] <;> dsimp only
  · exact Nat.two_pow_pos _
  · exact Nat.mod_lt _ (Nat.two_pow_pos _)
  · exact Nat.mod_lt _ (Nat.two_pow_pos _)

/-- A returned id is a `uint64`. -/
theorem GetID_some_lt {sg : SnowflakeGenerator} {now id : Nat}
    (hret : (GetID sg now).1 = some id) : id < 2 ^ 64 := by
  rw [GetID_some_eq_packID hret]
  unfold packID
  exact Nat.or_lt_two_pow (shl64_lt _ _) (GetID_sequence_lt sg now)

/-- A returning call stores the epoch-relative reading as `lastTimestamp`. -/
theorem GetID_some_lastTimestamp {sg : SnowflakeGenerator} {now id : Nat}
    (hret : (GetID sg now).1 = some id) :
    (GetID sg now).2.lastTimestamp = sub64 now sg.epoch := by
  rcases GetID_cases sg now with ⟨_, h⟩ | ⟨_, _, h⟩ | ⟨_, _, h⟩
  · rw [h]
  · rw [h] at hret; exact absurd hret (by simp)
  · rw [h]

/-- The packed id depends on the generator only through its two widths, its
machine id and its sequence, and on the reading only through its millisecond. -/
theorem packID_congr {sg sg' : SnowflakeGenerator} {τ τ' : Nat}
    (hmb : sg'.machineBits = sg.machineBits) (hmi : sg'.machineID = sg.machineID)
    (hsb : sg'.sequenceBits = sg.sequenceBits) (hseq : sg'.sequence = sg.sequence)
    (hms : τ' / MilliToNano = τ / MilliToNano) :
    packID sg' τ' = packID sg τ := by
  unfold packID
  simp only [hmb, hmi, hsb, hseq, hms]

/-- Calls that come less than the reset interval after `lastTimestamp`, in a
state whose sequence has reached the overflow bound: every one of them panics,
and all they change is the sequence. -/
theorem runCalls_all_fail (laters : List Nat) :
    ∀ sg : SnowflakeGenerator,
      (∀ x ∈ laters, sub64 (sub64 x sg.epoch) sg.lastTimestamp < sg.sequenceResetNano) →
      shl64 1 sg.sequenceBits ≤ sg.sequence →
      sg.sequence + laters.length < 2 ^ 64 →
      (∀ r ∈ runCalls sg laters, r = none) ∧
      runState sg laters = { sg with sequence := sg.sequence + laters.length } := by
  induction laters with
  | nil => intro sg _ _ _; exact ⟨fun r hr => by simp [runCalls] at hr, rfl⟩
  | cons x xs ih =>
    intro sg hgaps hbound hcount
    have hlen : (x :: xs).length = xs.length + 1 := List.length_cons _ _
    have hnowrap : (sg.sequence + 1) % 2 ^ 64 = sg.sequence + 1 :=
      Nat.mod_eq_of_lt (by omega)
    have h := GetID_overflow (hgaps x (List.mem_cons_self _ _))
      (by rw [hnowrap]; exact Nat.le_trans hbound (Nat.le_succ _))
    rw [hnowrap] at h
    obtain ⟨hnone, hstate⟩ := ih { sg with sequence := sg.sequence + 1 }
      (fun y hy => hgaps y (List.mem_cons_of_mem _ hy))
      (Nat.le_trans hbound (Nat.le_succ _)) (by dsimp only; omega)
    refine ⟨fun r hr => ?_, ?_⟩
    · rw [runCalls_cons, h, List.mem_cons] at hr
      rcases hr with hr | hr
      · exact hr
      · exact hnone r hr
    · show runState (GetID sg x).2 xs = _
      rw [h, hstate, hlen, Nat.add_assoc, Nat.add_comm 1]

/-! ## The claims -/

/-- C1. Two calls in the same millisecond on a generator built by
`NewSnowflakeGeneratorFromConfig` (valid widths 41 + 10 + 12, machine id 5)
both return, and return the same id: the constructor leaves
`sequenceResetNano` at zero, so every call resets the sequence. -/
theorem fromConfig_duplicate_ids :
    runCalls (NewSnowflakeGeneratorFromConfig 0 41 10 5 12)
        [1700000000000000000, 1700000000000000001]
      = [some 7130316800000020480, some 7130316800000020480] := by
  decide

/-- C2. Monotonicity: on a generator built by `NewSnowflakeGenerator` or
`NewSnowflakeGeneratorFromConfig` with a valid configuration, if a call of
`GetID` returns `a` and a later call returns `b`, and the clock readings from
the first of the two calls on are non-decreasing, at least the epoch and give a
millisecond timestamp below `2^timestampBits`, then `a ≤ b`.  The calls made
before (`pre`) are arbitrary.  The run is one in which no call panics (a panic
that is not recovered ends the program) or one of fewer than `2^64` calls. -/
theorem getID_monotone (sg0 : SnowflakeGenerator) (pre : List Nat) (t : Nat) (rest : List Nat)
    (a b : Nat)
    (hbuilt : (∃ generatedMachineID, sg0 = NewSnowflakeGenerator generatedMachineID) ∨
      (∃ epoch timestampBits machineBits machineID sequenceBits,
        sg0 = NewSnowflakeGeneratorFromConfig epoch timestampBits machineBits machineID
          sequenceBits))
    (hvalid : sg0.machineBits + sg0.sequenceBits + sg0.timestampBits ≤ 64)
    (hmid : sg0.machineID < 2 ^ sg0.machineBits)
    (hsorted : List.Sorted (· ≤ ·) (t :: rest))
    (hclock : ∀ x ∈ t :: rest, sg0.epoch ≤ x ∧ x < 2 ^ 64)
    (hfit : ∀ x ∈ t :: rest, (x - sg0.epoch) / 1000000 < 2 ^ sg0.timestampBits)
    (hrun : none ∉ runCalls sg0 (pre ++ t :: rest) ∨ (pre ++ t :: rest).length < 2 ^ 64)
    (ha : (GetID (runState sg0 pre) t).1 = some a)
    (hb : some b ∈ runCalls (GetID (runState sg0 pre) t).2 rest) : a ≤ b := by
  obtain ⟨he, _, hmb, hmi, hsb, hrn⟩ := runState_config pre sg0
  have hseq := runState_sequence_le pre sg0
  have hbits : (runState sg0 pre).machineBits + (runState sg0 pre).sequenceBits ≤ 64 := by
    rw [hmb, hsb]; omega
  have hmid' : (runState sg0 pre).machineID < 2 ^ (runState sg0 pre).machineBits := by
    rw [hmi, hmb]; exact hmid
  have hepoch : (runState sg0 pre).epoch ≤ t := by
    rw [he]; exact (hclock t (List.mem_cons_self _ _)).1
  have htyp : ∀ x ∈ t :: rest, x < 2 ^ 64 := fun x hx => (hclock x hx).2
  have hpow : (2 : Nat) ^ sg0.timestampBits ≤ 2 ^ (64 - sg0.machineBits - sg0.sequenceBits) :=
    Nat.pow_le_pow_right (by decide) (by omega)
  have hfit' : ∀ x ∈ t :: rest, (x - (runState sg0 pre).epoch) / MilliToNano
      < 2 ^ (64 - (runState sg0 pre).machineBits - (runState sg0 pre).sequenceBits) := by
    intro x hx
    rw [he, hmb, hsb]
    exact Nat.lt_of_lt_of_le (hfit x hx) hpow
  rcases hbuilt with ⟨m, rfl⟩ | ⟨e, tb, mb, m, sb, rfl⟩
  · have hsafe : (runState (NewSnowflakeGenerator m) pre).sequence + rest.length + 1 < 2 ^ 64 ∨
        ((runState (NewSnowflakeGenerator m) pre).sequence
            < 2 ^ (runState (NewSnowflakeGenerator m) pre).sequenceBits ∧
          none ∉ runCalls (GetID (runState (NewSnowflakeGenerator m) pre) t).2 rest) := by
      rcases hrun with hnp | hcount
      · rw [runCalls_append, List.mem_append, not_or, runCalls_cons, List.mem_cons, not_or]
          at hnp
        refine Or.inr ⟨?_, hnp.2.2⟩
        rw [hsb]
        exact runState_sequence_lt pre _ (show 0 < 2 ^ 12 by omega) hnp.1
      · have h0 : (NewSnowflakeGenerator m).sequence = 0 := rfl
        simp only [List.length_append, List.length_cons] at hcount
        exact Or.inl (by omega)
    exact Nat.le_of_lt
      (getID_lt_later _ t rest a b hbits hmid' (by rw [hrn]; exact Nat.le_refl _) hepoch
        hsorted htyp hfit' hsafe ha hb)
  · exact getID_le_later_zero _ t rest a b hbits hmid' (by rw [hrn]; rfl) hepoch
      hsorted htyp hfit' ha hb

/-- The monotonicity theorem at a default generator with machine id 5: one
earlier call, then three calls within a millisecond. -/
theorem getID_monotone_witness :
    (GetID (runState (NewSnowflakeGenerator 5) [999]) 1700000000000000000).1
      = some 7130316800000020480 ∧
    some 7130316800000020482 ∈
      runCalls (GetID (runState (NewSnowflakeGenerator 5) [999]) 1700000000000000000).2
        [1700000000000000000, 1700000000000500000] ∧
    (7130316800000020480 : Nat) ≤ 7130316800000020482 :=
  ⟨by decide, by decide,
   getID_monotone (NewSnowflakeGenerator 5) [999] 1700000000000000000
     [1700000000000000000, 1700000000000500000] 7130316800000020480 7130316800000020482
     (Or.inl ⟨5, rfl⟩) (by decide) (by decide) (by decide) (by decide) (by decide)
     (Or.inl (by decide)) (by decide) (by decide)⟩

/-- C3. Packing formula: whenever `GetID` returns, the id is
`((ts << machineBits) | machineID) << sequenceBits | seq` in unsigned 64-bit
arithmetic, where `ts = ((now - epoch) mod 2^64) / 1000000` and `seq` is the
sequence stored after the call. -/
theorem getID_packing_formula (sg : SnowflakeGenerator) (now id : Nat)
    (hret : (GetID sg now).1 = some id) :
    id =
      (((((((now : Int) - (sg.epoch : Int)) % 2 ^ 64).toNat / 1000000) <<< sg.machineBits) % 2 ^ 64
          ||| sg.machineID) <<< sg.sequenceBits) % 2 ^ 64
        ||| (GetID sg now).2.sequence := by
  rw [GetID_some_eq_packID hret, ← sub64_eq_toNat]
  simp only [packID, shl64, MilliToNano, Nat.shiftLeft_eq, (GetID_config sg now).2.2.1,
    (GetID_config sg now).2.2.2.1, (GetID_config sg now).2.2.2.2.1]

/-- The packing formula at the first call of a generator with machine id 5. -/
theorem getID_packing_formula_witness :
    (GetID (NewSnowflakeGeneratorFromConfig 0 41 10 5 12) 1000000).1 = some 4214784 ∧
    (4214784 : Nat) =
      ((((((((1000000 : Nat) : Int) - ((0 : Nat) : Int)) % 2 ^ 64).toNat / 1000000) <<< 10) % 2 ^ 64
          ||| 5) <<< 12) % 2 ^ 64 ||| 0 :=
  ⟨by decide,
   getID_packing_formula (NewSnowflakeGeneratorFromConfig 0 41 10 5 12) 1000000 4214784
     (by decide)⟩

/-- C4. Field round-trip: with `machineBits + sequenceBits ≤ 64` and
`machineID < 2^machineBits`, an id returned by `GetID` decodes to its fields:
the low `sequenceBits` bits are the stored sequence (which is below
`2^sequenceBits`), the next `machineBits` bits are the machine id, and the
remaining high bits are the millisecond timestamp when that is below
`2^(64 - machineBits - sequenceBits)`. -/
theorem getID_field_round_trip (sg : SnowflakeGenerator) (now id : Nat)
    (hbits : sg.machineBits + sg.sequenceBits ≤ 64)
    (hmid : sg.machineID < 2 ^ sg.machineBits)
    (hret : (GetID sg now).1 = some id) :
    id % 2 ^ sg.sequenceBits = (GetID sg now).2.sequence ∧
    (GetID sg now).2.sequence < 2 ^ sg.sequenceBits ∧
    (id >>> sg.sequenceBits) % 2 ^ sg.machineBits = sg.machineID ∧
    ((((now : Int) - (sg.epoch : Int)) % 2 ^ 64).toNat / 1000000
        < 2 ^ (64 - sg.machineBits - sg.sequenceBits) →
      id >>> (sg.machineBits + sg.sequenceBits)
        = (((now : Int) - (sg.epoch : Int)) % 2 ^ 64).toNat / 1000000) := by
  obtain ⟨_, _, hmb, hmi, hsb, _⟩ := GetID_config sg now
  have hseq := GetID_some_sequence_lt hret
  have hdec := packID_decode (GetID sg now).2 (sub64 now sg.epoch)
    (by rw [hmb, hsb]; exact hbits) (by rw [hmi, hmb]; exact hmid) (by rw [hsb]; exact hseq)
  rw [← GetID_some_eq_packID hret, hmb, hmi, hsb] at hdec
  rw [← sub64_eq_toNat, Nat.shiftRight_eq_div_pow, Nat.shiftRight_eq_div_pow]
  refine ⟨hdec.1, hseq, hdec.2.1, fun hts => ?_⟩
  rw [hdec.2.2]
  exact Nat.mod_eq_of_lt hts

/-- The round trip at epoch 0, widths 41, 10, 12 and machine id 5. -/
theorem getID_field_round_trip_witness :
    (GetID (NewSnowflakeGeneratorFromConfig 0 41 10 5 12) 1700000000123456789).1
      = some 7130316800515919872 ∧
    7130316800515919872 % 2 ^ 12 = 0 ∧
    (7130316800515919872 >>> 12) % 2 ^ 10 = 5 ∧
    7130316800515919872 >>> (10 + 12) = 1700000000123 :=
  (fun h => ⟨by decide, h.1, h.2.2.1, h.2.2.2 (by decide)⟩)
    (getID_field_round_trip (NewSnowflakeGeneratorFromConfig 0 41 10 5 12) 1700000000123456789
      7130316800515919872 (by decide) (by decide) (by decide))

/-- C5. Overflow boundary: on a fresh default generator, for every
non-decreasing list of `2^12 + 1` clock readings that lie within a window
shorter than 1,000,000 ns and start at least 1,000,000 ns after the epoch, the
first `2^12` calls return ids carrying the sequence values `0, 1, ..., 2^12 - 1`
in order and the last call panics with the sequence overflow. -/
theorem overflow_boundary (generatedMachineID : Nat) (nows : List Nat)
    (hlen : nows.length = 2 ^ 12 + 1)
    (hsorted : List.Sorted (· ≤ ·) nows)
    (hwindow : ∀ x ∈ nows, ∀ y ∈ nows, y < x + 1000000)
    (hfirst : ∀ t0, nows.head? = some t0 → 1000000 ≤ t0)
    (htyp : ∀ x ∈ nows, x < 2 ^ 64) :
    (∀ k, k < 2 ^ 12 →
      ∃ id, (runCalls (NewSnowflakeGenerator generatedMachineID) nows)[k]? = some (some id) ∧
        id % 2 ^ 12 = k) ∧
    (runCalls (NewSnowflakeGenerator generatedMachineID) nows)[2 ^ 12]? = some none := by
  cases nows with
  | nil => simp at hlen
  | cons t0 rest =>
    have ht0 : 1000000 ≤ t0 := hfirst t0 rfl
    have ht64 : t0 < 2 ^ 64 := htyp t0 (List.mem_cons_self _ _)
    have hrest : rest.length = 2 ^ 12 := by simpa using hlen
    have hstart : sub64 t0 (NewSnowflakeGenerator generatedMachineID).epoch = t0 :=
      sub64_of_le (Nat.zero_le _) ht64
    have h := @GetID_reset (NewSnowflakeGenerator generatedMachineID) t0
      (by rw [hstart]
          show MilliToNano ≤ sub64 t0 0
          rw [sub64_of_le (Nat.zero_le _) ht64]; exact ht0)
    rw [hstart] at h
    have hchain : List.Chain (fun p q => p ≤ q ∧ q < p + 1000000) t0 rest :=
      List.Pairwise.chain
        (List.Pairwise.and hsorted (List.pairwise_of_forall_mem_list hwindow))
    have hrun := runCalls_short_gaps rest
      { NewSnowflakeGenerator generatedMachineID with sequence := 0, lastTimestamp := t0 } t0
      (show 12 < 64 by omega) (Nat.zero_le _) ht64 rfl hchain
      (fun y hy => htyp y (List.mem_cons_of_mem _ hy))
    refine ⟨fun k hk => ?_, ?_⟩
    · cases k with
      | zero =>
        refine ⟨packID
          { NewSnowflakeGenerator generatedMachineID with sequence := 0, lastTimestamp := t0 }
          t0, by simp only [runCalls, h, List.getElem?_cons_zero], ?_⟩
        exact packID_mod
          { NewSnowflakeGenerator generatedMachineID with sequence := 0, lastTimestamp := t0 } _
          (show 12 ≤ 64 by omega) (show 0 < 2 ^ 12 by omega)
      | succ j =>
        simp only [runCalls, h, List.getElem?_cons_succ]
        obtain ⟨id, h1, h2⟩ := (hrun j (by omega)).1 (by
          show 0 + j + 1 < 2 ^ 12
          omega)
        exact ⟨id, h1, by
          have h3 : id % 2 ^ 12 = 0 + j + 1 := h2
          omega⟩
    · have hlast := (hrun (2 ^ 12 - 1) (by omega)).2 (show 0 + (2 ^ 12 - 1) + 1 = 2 ^ 12 by omega)
      have hidx : (2 : Nat) ^ 12 = (2 ^ 12 - 1) + 1 := by decide
      rw [hidx]
      simp only [runCalls, h, List.getElem?_cons_succ]
      exact hlast

/-- The overflow boundary at 4097 readings 100 ns apart. -/
theorem overflow_boundary_witness :
    (List.range' 1700000000000000000 4097 100).length = 2 ^ 12 + 1 ∧
    ((∀ k, k < 2 ^ 12 →
      ∃ id, (runCalls (NewSnowflakeGenerator 5) (List.range' 1700000000000000000 4097 100))[k]?
          = some (some id) ∧ id % 2 ^ 12 = k) ∧
      (runCalls (NewSnowflakeGenerator 5) (List.range' 1700000000000000000 4097 100))[2 ^ 12]?
        = some none) :=
  ⟨List.length_range' _ _ _,
   overflow_boundary 5 (List.range' 1700000000000000000 4097 100)
     (List.length_range' _ _ _)
     (List.pairwise_le_range' _ _ _)
     (fun x hx y hy => by
        obtain ⟨i, hi, rfl⟩ := List.mem_range'.mp hx
        obtain ⟨j, hj, rfl⟩ := List.mem_range'.mp hy
        omega)
     (fun t0 h0 => by
        rw [List.range'_succ, List.head?_cons] at h0
        rw [← Option.some.inj h0]
        decide)
     (fun x hx => by
        obtain ⟨i, hi, rfl⟩ := List.mem_range'.mp hx
        omega)⟩

/-- C6. `GetID` fails exactly on sequence exhaustion: it panics when the
wrapped gap `((now - epoch) - lastTimestamp) mod 2^64` is below
`sequenceResetNano` and the incremented sequence (the `uint64` value
`sequence + 1`) is at least the `uint64` shift `1 << sequenceBits`; in every
other case it returns an id, and a returned id is always packed from a stored
sequence below `2^sequenceBits`.  The last part repeats the condition with the
integer `sequence + 1`, which is the same value unless `sequence = 2^64 - 1`. -/
theorem getID_fails_iff_exhausted (sg : SnowflakeGenerator) (now : Nat) :
    ((GetID sg now).1 = none ↔
      ((((now : Int) - (sg.epoch : Int) - (sg.lastTimestamp : Int)) % 2 ^ 64).toNat
          < sg.sequenceResetNano ∧
        (1 <<< sg.sequenceBits) % 2 ^ 64 ≤ (sg.sequence + 1) % 2 ^ 64)) ∧
    ((GetID sg now).1 = none ∨ ∃ id, (GetID sg now).1 = some id ∧
      id = packID (GetID sg now).2 (sub64 now sg.epoch) ∧
      (GetID sg now).2.sequence < 2 ^ sg.sequenceBits) ∧
    (sg.sequence + 1 < 2 ^ 64 →
      ((GetID sg now).1 = none ↔
        ((((now : Int) - (sg.epoch : Int) - (sg.lastTimestamp : Int)) % 2 ^ 64).toNat
            < sg.sequenceResetNano ∧
          (1 <<< sg.sequenceBits) % 2 ^ 64 ≤ sg.sequence + 1))) := by
  have hiff : (GetID sg now).1 = none ↔
      (sub64 (sub64 now sg.epoch) sg.lastTimestamp < sg.sequenceResetNano ∧
        shl64 1 sg.sequenceBits ≤ (sg.sequence + 1) % 2 ^ 64) := by
    rcases GetID_cases sg now with ⟨hg, h⟩ | ⟨hg, hs, h⟩ | ⟨hg, hs, h⟩
    · rw [h]; simp only [reduceCtorEq, false_iff, not_and]
      intro hlt; exact absurd hlt (Nat.not_lt.mpr hg)
    · rw [h]; simp only [true_iff]; exact ⟨hg, hs⟩
    · rw [h]; simp only [reduceCtorEq, false_iff, not_and]
      intro _; exact Nat.not_le.mpr hs
  have hshift : (1 <<< sg.sequenceBits) % 2 ^ 64 = shl64 1 sg.sequenceBits := by
    rw [Nat.shiftLeft_eq]; rfl
  rw [← sub64_sub64_eq_toNat, hshift]
  refine ⟨hiff, ?_, fun hlt => ?_⟩
  · cases hres : (GetID sg now).1 with
    | none => exact Or.inl rfl
    | some id =>
      exact Or.inr ⟨id, rfl, GetID_some_eq_packID hres, GetID_some_sequence_lt hres⟩
  · rw [hiff, Nat.mod_eq_of_lt hlt]

/-- C7. A generator built by `NewSnowflakeGeneratorFromConfig` has
`sequenceResetNano = 0`, not the 1,000,000 ns of `NewSnowflakeGenerator`: of
two calls 500 ns apart the second carries sequence `0` again, where the default
generator carries sequence `1`. -/
theorem fromConfig_reset_interval_zero :
    (NewSnowflakeGeneratorFromConfig 0 41 10 5 12).sequenceResetNano = 0 ∧
    (NewSnowflakeGenerator 5).sequenceResetNano = 1000000 ∧
    (runCalls (NewSnowflakeGeneratorFromConfig 0 41 10 5 12)
        [1700000000000000000, 1700000000000000500]).map (Option.map (· % 2 ^ 12))
      = [some 0, some 0] ∧
    (runCalls (NewSnowflakeGenerator 5)
        [1700000000000000000, 1700000000000000500]).map (Option.map (· % 2 ^ 12))
      = [some 0, some 1] := by
  decide

/-- C8. The epoch is subtracted from the nanosecond reading as it stands: with
epoch 1288834974657 (a millisecond count) and reading 1700000000000000000 ns
the id carries the timestamp 1699998711165, while the milliseconds elapsed
since that epoch are 411165025343. -/
theorem epoch_subtracted_from_nanoseconds :
    (GetID (NewSnowflakeGeneratorFromConfig 1288834974657 41 10 0 12)
        1700000000000000000).1.map (· >>> (10 + 12)) = some 1699998711165 ∧
    1700000000000000000 / 1000000 - 1288834974657 = 411165025343 := by
  decide

/-- C9. On the default generator, whatever machine id was drawn, 4097 calls
spaced 900,000 ns apart end in a sequence overflow, although every reading but
the last two is at least 1,000,000 ns before the failing one. -/
theorem overflow_with_spaced_calls (generatedMachineID : Nat) :
    (runCalls (NewSnowflakeGenerator generatedMachineID)
        (List.range' 1700000000000000000 4097 900000))[4096]? = some none ∧
    (∀ k x, k < 4095 → (List.range' 1700000000000000000 4097 900000)[k]? = some x →
      x + 1000000 ≤ 1700000000000000000 + 900000 * 4096) := by
  refine ⟨?_, fun k x hk hx => ?_⟩
  · have ht64 : 1700000000000000000 < 2 ^ 64 := by decide
    have hstart : sub64 (sub64 1700000000000000000 0) 0 = 1700000000000000000 := by decide
    have h := @GetID_reset (NewSnowflakeGenerator generatedMachineID) 1700000000000000000
      (by
        show MilliToNano ≤ sub64 (sub64 1700000000000000000 0) 0
        rw [hstart]; decide)
    have hchain : List.Chain (fun p q => p ≤ q ∧ q < p + 1000000) 1700000000000000000
        (List.range' (1700000000000000000 + 900000) 4096 900000) :=
      (List.chain_succ_range' 1700000000000000000 4096 900000).imp
        (fun p q hpq => by omega)
    have hrun := runCalls_short_gaps (List.range' (1700000000000000000 + 900000) 4096 900000)
      { NewSnowflakeGenerator generatedMachineID with
          sequence := 0, lastTimestamp := sub64 1700000000000000000 0 }
      1700000000000000000
      (show 12 < 64 by omega) (Nat.zero_le _) ht64
      (show sub64 1700000000000000000 0 = 1700000000000000000 - 0 by decide) hchain
      (fun y hy => by
        obtain ⟨i, hi, rfl⟩ := List.mem_range'.mp hy
        omega)
      4095 (by rw [List.length_range']; omega)
    rw [List.range'_succ]
    refine (getElem?_runCalls_cons_succ _ _ _ 4095).trans ?_
    rw [h]
    exact hrun.2 (show 0 + 4095 + 1 = 2 ^ 12 by omega)
  · rw [List.getElem?_range' _ _ (by omega)] at hx
    have := Option.some.inj hx
    omega

/-- C10. The timestamp part of an id is not held to `timestampBits`: the field
is set by both constructors and read nowhere.  With the valid configuration
epoch 0, timestampBits 20, machineBits 10, machine id 5, sequenceBits 12 and
the reading 1700000000123456789 ns, `GetID` returns an id whose timestamp part
is 1700000000123, a 41-bit value, not below `2^20`; the returned id is the same
whatever `timestampBits` is; and on the default generator (timestampBits 41)
the reading 2199023255552000000 ns gives the timestamp part `2^41`. -/
theorem timestampBits_not_enforced :
    (GetID (NewSnowflakeGeneratorFromConfig 0 20 10 5 12) 1700000000123456789).1
      = some 7130316800515919872 ∧
    7130316800515919872 >>> (10 + 12) = 1700000000123 ∧
    ¬ 7130316800515919872 >>> (10 + 12) < 2 ^ 20 ∧
    (2 ^ 40 ≤ 7130316800515919872 >>> (10 + 12) ∧
      7130316800515919872 >>> (10 + 12) < 2 ^ 41) ∧
    (∀ timestampBits : Nat,
      (GetID (NewSnowflakeGeneratorFromConfig 0 timestampBits 10 5 12)
        1700000000123456789).1 = some 7130316800515919872) ∧
    ((GetID (NewSnowflakeGenerator 0) 2199023255552000000).1 = some 9223372036854775808 ∧
      (NewSnowflakeGenerator 0).timestampBits = 41 ∧
      ¬ 9223372036854775808 >>>
          ((NewSnowflakeGenerator 0).machineBits + (NewSnowflakeGenerator 0).sequenceBits)
        < 2 ^ (NewSnowflakeGenerator 0).timestampBits) := by
  refine ⟨by decide, by decide, by decide, by decide, fun timestampBits => ?_, by decide⟩
  rw [@GetID_reset (NewSnowflakeGeneratorFromConfig 0 timestampBits 10 5 12)
    1700000000123456789 (Nat.zero_le _)]
  have hsame :
      packID
          { NewSnowflakeGeneratorFromConfig 0 timestampBits 10 5 12 with
            sequence := 0
            lastTimestamp :=
              sub64 1700000000123456789
                (NewSnowflakeGeneratorFromConfig 0 timestampBits 10 5 12).epoch }
          (sub64 1700000000123456789
            (NewSnowflakeGeneratorFromConfig 0 timestampBits 10 5 12).epoch)
        = packID (NewSnowflakeGeneratorFromConfig 0 20 10 5 12) 1700000000123456789 :=
    packID_congr rfl rfl rfl rfl
      (show sub64 1700000000123456789 0 / MilliToNano = 1700000000123456789 / MilliToNano
        by decide)
  have hval : packID (NewSnowflakeGeneratorFromConfig 0 20 10 5 12) 1700000000123456789
      = 7130316800515919872 := by decide
  exact congrArg some (hsame.trans hval)

/-- C11. Non-stateful contract of `SnowflakeGenerator`: in every generator
state `IsStateful` returns false, and `SetState` (for every argument) and
`GenerateIDs` (for every context) panic with their unsupported-operation
message and never return normally; the same holds when the generator is used
through the interface `Generator`. -/
theorem snowflake_not_stateful (sg : SnowflakeGenerator) (s : Nat) (ctx : Context) :
    IsStateful sg = false ∧
    SetState sg s = Except.error "SnowflakeGenerator.SetState should not be called." ∧
    GenerateIDs sg ctx = Except.error "SnowflakeGenerator.GenerateIDs should not be called." ∧
    (∀ after, SetState sg s ≠ Except.ok after) ∧
    (∀ after, GenerateIDs sg ctx ≠ Except.ok after) ∧
    (asGenerator sg).IsStateful (asGenerator sg).state = false ∧
    (∀ after, (asGenerator sg).SetState (asGenerator sg).state s ≠ Except.ok after) ∧
    (∀ after, (asGenerator sg).GenerateIDs (asGenerator sg).state ctx ≠ Except.ok after) := by
  refine ⟨rfl, rfl, rfl, ?_, ?_, rfl, ?_, ?_⟩ <;> intro after h <;> cases h

/-- C12. Registry delegation: when the table associates `recordType` with the
generator object at address `p`, `GetIDForRecordType(recordType)` ends exactly
as that object's `GetID` does for the call (the value it returns, or its
panic), the object is afterwards in the state one `GetID` call leaves it in,
and every other generator object is untouched. -/
theorem getIDForRecordType_delegates {T : Type} (m : Manager T) (heap : Nat → Generator T)
    (recordType : String) (p now : Nat)
    (hentry : m.generators recordType = some (some p)) :
    (m.GetIDForRecordType heap recordType now).1
      = CallResult.ofGetID ((heap p).GetID (heap p).state now).1 ∧
    (∀ v, ((heap p).GetID (heap p).state now).1 = some v →
      (m.GetIDForRecordType heap recordType now).1 = CallResult.returned v) ∧
    (m.GetIDForRecordType heap recordType now).2 p
      = { heap p with state := ((heap p).GetID (heap p).state now).2 } ∧
    (∀ q, q ≠ p → (m.GetIDForRecordType heap recordType now).2 q = heap q) := by
  have hcall : m.GetIDForRecordType heap recordType now
      = (CallResult.ofGetID ((heap p).GetID (heap p).state now).1,
          Function.update heap p
            { heap p with state := ((heap p).GetID (heap p).state now).2 }) := by
    simp only [Manager.GetIDForRecordType, Manager.lookup, hentry]
  rw [hcall]
  refine ⟨rfl, fun v hv => ?_, ?_, fun q hq => ?_⟩
  · show CallResult.ofGetID _ = _
    rw [hv]; rfl
  · exact Function.update_same _ _ _
  · exact Function.update_noteq hq _ _

/-- The delegation theorem at a table with a default snowflake generator
(machine id 5) under the name "order": the registry returns the id that
`GetID` returns at the same clock reading. -/
theorem getIDForRecordType_delegates_witness :
    (GetID (NewSnowflakeGenerator 5) 1700000000000000000).1 = some 7130316800000020480 ∧
    (Manager.GetIDForRecordType
        ({ generators := fun k => if k = "order" then some (some 0) else none } : Manager Nat)
        (fun _ => asGenerator (NewSnowflakeGenerator 5)) "order" 1700000000000000000).1
      = CallResult.returned 7130316800000020480 :=
  ⟨by decide,
   (getIDForRecordType_delegates
      ({ generators := fun k => if k = "order" then some (some 0) else none } : Manager Nat)
      (fun _ => asGenerator (NewSnowflakeGenerator 5)) "order" 0 1700000000000000000
      (by decide)).2.1 7130316800000020480 (by decide)⟩

/-- C13. On a `Manager` just returned by `NewManager`, for every record type,
`GetIDForRecordType` reports no lookup miss: the lookup gives the nil interface
and `false`, nothing is done about it, and the call `generator.GetID()` on the
nil interface ends in the run-time nil-dereference panic.  The same happens on
any `Manager` for a record type that is not in its table. -/
theorem getIDForRecordType_unknown_nil_dereference {T : Type} (heap : Nat → Generator T)
    (recordType : String) (now : Nat) :
    (NewManager : Manager T).lookup recordType = (none, false) ∧
    ((NewManager : Manager T).GetIDForRecordType heap recordType now).1
      = CallResult.nilDereference ∧
    (∀ m : Manager T, m.generators recordType = none →
      (m.GetIDForRecordType heap recordType now).1 = CallResult.nilDereference) := by
  refine ⟨rfl, rfl, fun m hm => ?_⟩
  simp only [Manager.GetIDForRecordType, Manager.lookup, hm]

/-- C14. Default configuration: whatever machine id was drawn, the generator
returned by `NewSnowflakeGenerator` has epoch 0, timestampBits 41,
machineBits 10, that machine id, sequenceBits 12, sequenceResetNano 1,000,000,
lastTimestamp 0 and sequence 0; its three widths sum to 63. -/
theorem default_configuration (generatedMachineID : Nat) :
    (NewSnowflakeGenerator generatedMachineID).epoch = 0 ∧
    (NewSnowflakeGenerator generatedMachineID).timestampBits = 41 ∧
    (NewSnowflakeGenerator generatedMachineID).machineBits = 10 ∧
    (NewSnowflakeGenerator generatedMachineID).machineID = generatedMachineID ∧
    (NewSnowflakeGenerator generatedMachineID).sequenceBits = 12 ∧
    (NewSnowflakeGenerator generatedMachineID).sequenceResetNano = 1000000 ∧
    (NewSnowflakeGenerator generatedMachineID).lastTimestamp = 0 ∧
    (NewSnowflakeGenerator generatedMachineID).sequence = 0 ∧
    (NewSnowflakeGenerator generatedMachineID).timestampBits
        + (NewSnowflakeGenerator generatedMachineID).machineBits
        + (NewSnowflakeGenerator generatedMachineID).sequenceBits = 63 ∧
    (63 : Nat) ≤ 64 :=
  ⟨rfl, rfl, rfl, rfl, rfl, rfl, rfl, rfl, rfl, by decide⟩

/-- C15. State transition of a returning `GetID`: afterwards `lastTimestamp` is
`(now - epoch) mod 2^64`; the sequence is 0 if the wrapped gap
`((now - epoch) - lastTimestamp) mod 2^64` is at least `sequenceResetNano` and
the incremented old sequence otherwise (the `uint64` value `sequence + 1`,
which is the integer `sequence + 1` unless `sequence = 2^64 - 1`); the six
configuration fields are unchanged. -/
theorem getID_state_transition (sg : SnowflakeGenerator) (now id : Nat)
    (hret : (GetID sg now).1 = some id) :
    (GetID sg now).2.lastTimestamp = (((now : Int) - (sg.epoch : Int)) % 2 ^ 64).toNat ∧
    (GetID sg now).2.sequence =
      (if sg.sequenceResetNano
          ≤ (((now : Int) - (sg.epoch : Int) - (sg.lastTimestamp : Int)) % 2 ^ 64).toNat
        then 0 else (sg.sequence + 1) % 2 ^ 64) ∧
    (sg.sequence + 1 < 2 ^ 64 →
      (GetID sg now).2.sequence =
        (if sg.sequenceResetNano
            ≤ (((now : Int) - (sg.epoch : Int) - (sg.lastTimestamp : Int)) % 2 ^ 64).toNat
          then 0 else sg.sequence + 1)) ∧
    (GetID sg now).2.epoch = sg.epoch ∧
    (GetID sg now).2.timestampBits = sg.timestampBits ∧
    (GetID sg now).2.machineBits = sg.machineBits ∧
    (GetID sg now).2.machineID = sg.machineID ∧
    (GetID sg now).2.sequenceBits = sg.sequenceBits ∧
    (GetID sg now).2.sequenceResetNano = sg.sequenceResetNano := by
  have hseq : (GetID sg now).2.sequence =
      (if sg.sequenceResetNano ≤ sub64 (sub64 now sg.epoch) sg.lastTimestamp
        then 0 else (sg.sequence + 1) % 2 ^ 64) := by
    rcases GetID_cases sg now with ⟨hg, h⟩ | ⟨_, _, h⟩ | ⟨hg, _, h⟩
    · rw [h, if_pos hg]
    · rw [h] at hret; exact absurd hret (by simp)
    · rw [h, if_neg (Nat.not_le.mpr hg)]
  rw [← sub64_eq_toNat, ← sub64_sub64_eq_toNat]
  refine ⟨GetID_some_lastTimestamp hret, hseq, fun hlt => ?_, GetID_config sg now⟩
  rw [hseq, Nat.mod_eq_of_lt hlt]

/-- The state transition at the second of two calls 500 ns apart on a default
generator: the sequence goes from 0 to 1. -/
theorem getID_state_transition_witness :
    (GetID (GetID (NewSnowflakeGenerator 5) 1700000000000000000).2 1700000000000000500).1
      = some 7130316800000020481 ∧
    (GetID (GetID (NewSnowflakeGenerator 5) 1700000000000000000).2
      1700000000000000500).2.lastTimestamp = 1700000000000000500 ∧
    (GetID (GetID (NewSnowflakeGenerator 5) 1700000000000000000).2
      1700000000000000500).2.sequence = 1 :=
  (fun h => ⟨by decide, h.1.trans (by decide), h.2.1.trans (by decide)⟩)
    (getID_state_transition (GetID (NewSnowflakeGenerator 5) 1700000000000000000).2
      1700000000000000500 7130316800000020481 (by decide))

/-- C16. The explicit-configuration constructor does not validate: for every
argument tuple, whatever the widths sum to and whether or not the machine id
fits its field, `NewSnowflakeGeneratorFromConfig` returns a generator whose
epoch, timestampBits, machineBits, machineID and sequenceBits are the
arguments, with lastTimestamp 0 and sequence 0. -/
theorem fromConfig_does_not_validate
    (epoch timestampBits machineBits machineID sequenceBits : Nat) :
    (NewSnowflakeGeneratorFromConfig epoch timestampBits machineBits machineID
      sequenceBits).epoch = epoch ∧
    (NewSnowflakeGeneratorFromConfig epoch timestampBits machineBits machineID
      sequenceBits).timestampBits = timestampBits ∧
    (NewSnowflakeGeneratorFromConfig epoch timestampBits machineBits machineID
      sequenceBits).machineBits = machineBits ∧
    (NewSnowflakeGeneratorFromConfig epoch timestampBits machineBits machineID
      sequenceBits).machineID = machineID ∧
    (NewSnowflakeGeneratorFromConfig epoch timestampBits machineBits machineID
      sequenceBits).sequenceBits = sequenceBits ∧
    (NewSnowflakeGeneratorFromConfig epoch timestampBits machineBits machineID
      sequenceBits).lastTimestamp = 0 ∧
    (NewSnowflakeGeneratorFromConfig epoch timestampBits machineBits machineID
      sequenceBits).sequence = 0 :=
  ⟨rfl, rfl, rfl, rfl, rfl, rfl, rfl⟩

/-- C17. Strictly increasing ids: for a generator whose reset interval is at
least one millisecond, with `machineBits + sequenceBits ≤ 64` and
`machineID < 2^machineBits`, started in any state with
`sequence < 2^sequenceBits`: if a call of `GetID` returns `a` and a later call
returns `b`, and the clock readings from the first of the two calls on are
non-decreasing, at least the epoch and give a millisecond timestamp below
`2^(64 - machineBits - sequenceBits)`, then `a < b`, so the two ids differ.
The calls made before (`pre`) are arbitrary and calls in between may panic;
the run is one in which no call panics or one of fewer than `2^64` calls. -/
theorem ids_strictly_increasing (sg0 : SnowflakeGenerator) (pre : List Nat) (t : Nat)
    (rest : List Nat) (a b : Nat)
    (hinterval : 1000000 ≤ sg0.sequenceResetNano)
    (hbits : sg0.machineBits + sg0.sequenceBits ≤ 64)
    (hmid : sg0.machineID < 2 ^ sg0.machineBits)
    (hseq : sg0.sequence < 2 ^ sg0.sequenceBits)
    (hsorted : List.Sorted (· ≤ ·) (t :: rest))
    (hclock : ∀ x ∈ t :: rest, sg0.epoch ≤ x ∧ x < 2 ^ 64)
    (hfit : ∀ x ∈ t :: rest,
      (x - sg0.epoch) / 1000000 < 2 ^ (64 - sg0.machineBits - sg0.sequenceBits))
    (hrun : none ∉ runCalls sg0 (pre ++ t :: rest) ∨
      sg0.sequence + (pre ++ t :: rest).length < 2 ^ 64)
    (ha : (GetID (runState sg0 pre) t).1 = some a)
    (hb : some b ∈ runCalls (GetID (runState sg0 pre) t).2 rest) :
    a < b ∧ a ≠ b := by
  obtain ⟨he, _, hmb, hmi, hsb, hrn⟩ := runState_config pre sg0
  have hle := runState_sequence_le pre sg0
  have hsafe : (runState sg0 pre).sequence + rest.length + 1 < 2 ^ 64 ∨
      ((runState sg0 pre).sequence < 2 ^ (runState sg0 pre).sequenceBits ∧
        none ∉ runCalls (GetID (runState sg0 pre) t).2 rest) := by
    rcases hrun with hnp | hcount
    · rw [runCalls_append, List.mem_append, not_or, runCalls_cons, List.mem_cons, not_or] at hnp
      refine Or.inr ⟨?_, hnp.2.2⟩
      rw [hsb]
      exact runState_sequence_lt pre sg0 hseq hnp.1
    · simp only [List.length_append, List.length_cons] at hcount
      exact Or.inl (by omega)
  have hlt : a < b :=
    getID_lt_later (runState sg0 pre) t rest a b
      (by rw [hmb, hsb]; exact hbits) (by rw [hmi, hmb]; exact hmid)
      (by rw [hrn]; exact hinterval)
      (by rw [he]; exact (hclock t (List.mem_cons_self _ _)).1)
      hsorted (fun x hx => (hclock x hx).2)
      (fun x hx => by rw [he, hmb, hsb]; exact hfit x hx)
      hsafe ha hb
  exact ⟨hlt, Nat.ne_of_lt hlt⟩

/-- Strictly increasing ids with a panic in between: widths 41, 10, 1, machine
id 5, reset interval 1,000,000 ns.  The first two calls return, the third (same
reading) panics, and the call one millisecond later returns a larger id. -/
theorem ids_strictly_increasing_witness :
    (GetID { NewSnowflakeGenerator 5 with sequenceBits := 1 } 1700000000000000000).1
      = some 3481600000000010 ∧
    runCalls (GetID { NewSnowflakeGenerator 5 with sequenceBits := 1 } 1700000000000000000).2
        [1700000000000000000, 1700000000000000000, 1700000000001000000]
      = [some 3481600000000011, none, some 3481600000002058] ∧
    ((3481600000000010 : Nat) < 3481600000002058 ∧
      (3481600000000010 : Nat) ≠ 3481600000002058) :=
  ⟨by decide, by decide,
   ids_strictly_increasing { NewSnowflakeGenerator 5 with sequenceBits := 1 } []
     1700000000000000000 [1700000000000000000, 1700000000000000000, 1700000000001000000]
     3481600000000010 3481600000002058
     (by decide) (by decide) (by decide) (by decide) (by decide) (by decide) (by decide)
     (Or.inr (by decide)) (by decide) (by decide)⟩

/-- C18. A backward clock step duplicates an id: in the default configuration
(any machine id, any stored state), if a call at reading `t1` returned an id
with sequence 0 and the next call reads `t2 < t1` in the same millisecond, then
the wrapped gap `(t2 - t1) mod 2^64` is at least `sequenceResetNano`, and the
second call returns, with sequence 0, exactly the id of the first call. -/
theorem backward_clock_duplicates_id
    (generatedMachineID lastTimestamp sequence t1 t2 id1 : Nat)
    (ht1 : t1 < 2 ^ 64) (hback : t2 < t1) (hms : t2 / 1000000 = t1 / 1000000)
    (hret : (GetID { NewSnowflakeGenerator generatedMachineID with
        lastTimestamp := lastTimestamp, sequence := sequence } t1).1 = some id1)
    (hzero : id1 % 2 ^ 12 = 0) :
    (NewSnowflakeGenerator generatedMachineID).sequenceResetNano
      ≤ (((t2 : Int) - (t1 : Int)) % 2 ^ 64).toNat ∧
    (GetID (GetID { NewSnowflakeGenerator generatedMachineID with
        lastTimestamp := lastTimestamp, sequence := sequence } t1).2 t2).1 = some id1 ∧
    (GetID (GetID { NewSnowflakeGenerator generatedMachineID with
        lastTimestamp := lastTimestamp, sequence := sequence } t1).2 t2).2.sequence = 0 := by
  obtain ⟨hepoch, _, hmb, hmi, hsb, hrn⟩ :=
    GetID_config { NewSnowflakeGenerator generatedMachineID with
      lastTimestamp := lastTimestamp, sequence := sequence } t1
  have hlast := GetID_some_lastTimestamp hret
  have hid := GetID_some_eq_packID hret
  have hlt := GetID_some_sequence_lt hret
  generalize GetID { NewSnowflakeGenerator generatedMachineID with
      lastTimestamp := lastTimestamp, sequence := sequence } t1 = call at *
  obtain ⟨res, sg1⟩ := call
  dsimp only at hret hlast hid hlt hepoch hmb hmi hsb hrn
  have he0 : sg1.epoch = 0 := hepoch
  have hsb12 : sg1.sequenceBits = 12 := hsb
  have hr : sg1.sequenceResetNano = 1000000 := hrn
  have hτ1 : sub64 t1 0 = t1 := sub64_of_le (Nat.zero_le _) ht1
  have hτ2 : sub64 t2 0 = t2 := sub64_of_le (Nat.zero_le _) (Nat.lt_trans hback ht1)
  have hL : sg1.lastTimestamp = t1 := hlast.trans hτ1
  have hid1 : id1 = packID sg1 t1 := by
    rw [← hτ1]; exact hid
  have hs0 : sg1.sequence = 0 := by
    have hmod := packID_mod sg1 t1 (by rw [hsb12]; decide) (by rw [hsb12]; exact hlt)
    rw [← hid1, hsb12, hzero] at hmod
    exact hmod.symm
  have hgap : (1000000 : Nat) ≤ sub64 t2 t1 := by
    unfold sub64; omega
  have hreset := @GetID_reset sg1 t2 (by rw [he0, hτ2, hL, hr]; exact hgap)
  refine ⟨?_, ?_, ?_⟩
  · rw [← sub64_eq_toNat]; exact hgap
  · rw [hreset]
    dsimp only
    rw [hid1]
    exact congrArg some
      (packID_congr rfl rfl rfl hs0.symm (by rw [he0, hτ2]; exact hms))
  · rw [hreset]

/-- The backward step on a default generator with machine id 5: a call at
1700000000000000900 ns, then one at 1700000000000000100 ns. -/
theorem backward_clock_duplicates_id_witness :
    (GetID { NewSnowflakeGenerator 5 with lastTimestamp := 0, sequence := 0 }
        1700000000000000900).1 = some 7130316800000020480 ∧
    (GetID (GetID { NewSnowflakeGenerator 5 with lastTimestamp := 0, sequence := 0 }
        1700000000000000900).2 1700000000000000100).1 = some 7130316800000020480 :=
  ⟨by decide,
   (backward_clock_duplicates_id 5 0 0 1700000000000000900 1700000000000000100
      7130316800000020480 (by decide) (by decide) (by decide) (by decide) (by decide)).2.1⟩

/-- C19. A sequence-overflow failure is not atomic: when `GetID` panics, the
stored sequence has been incremented and has reached the overflow bound, while
`lastTimestamp` and the configuration are unchanged; every later call whose
reading is less than `sequenceResetNano` after that `lastTimestamp` panics too,
and the first call whose reading is at least `sequenceResetNano` after it
returns with sequence 0.  The calls counted by the sequence are fewer than
`2^64`. -/
theorem overflow_not_atomic (sg : SnowflakeGenerator) (now : Nat) (laters : List Nat) (y : Nat)
    (hfail : (GetID sg now).1 = none)
    (hcount : sg.sequence + laters.length + 1 < 2 ^ 64)
    (hlaters : ∀ x ∈ laters,
      (((x : Int) - (sg.epoch : Int) - (sg.lastTimestamp : Int)) % 2 ^ 64).toNat
        < sg.sequenceResetNano)
    (hy : sg.sequenceResetNano
      ≤ (((y : Int) - (sg.epoch : Int) - (sg.lastTimestamp : Int)) % 2 ^ 64).toNat) :
    (GetID sg now).2 = { sg with sequence := sg.sequence + 1 } ∧
    (1 <<< sg.sequenceBits) % 2 ^ 64 ≤ sg.sequence + 1 ∧
    (sg.sequenceBits < 64 → 2 ^ sg.sequenceBits ≤ sg.sequence + 1) ∧
    (∀ r ∈ runCalls (GetID sg now).2 laters, r = none) ∧
    (runState (GetID sg now).2 laters).lastTimestamp = sg.lastTimestamp ∧
    (∃ id, (GetID (runState (GetID sg now).2 laters) y).1 = some id) ∧
    (GetID (runState (GetID sg now).2 laters) y).2.sequence = 0 := by
  have hnowrap : (sg.sequence + 1) % 2 ^ 64 = sg.sequence + 1 :=
    Nat.mod_eq_of_lt (by omega)
  have hshift : (1 <<< sg.sequenceBits) % 2 ^ 64 = shl64 1 sg.sequenceBits := by
    rw [Nat.shiftLeft_eq]; rfl
  have hstep : GetID sg now = (none, { sg with sequence := sg.sequence + 1 }) ∧
      shl64 1 sg.sequenceBits ≤ sg.sequence + 1 := by
    rcases GetID_cases sg now with ⟨_, h⟩ | ⟨_, hs, h⟩ | ⟨_, _, h⟩
    · rw [h] at hfail; exact absurd hfail (by simp)
    · rw [hnowrap] at h hs; exact ⟨h, hs⟩
    · rw [h] at hfail; exact absurd hfail (by simp)
  obtain ⟨hcall, hbound⟩ := hstep
  obtain ⟨hnone, hstate⟩ := runCalls_all_fail laters { sg with sequence := sg.sequence + 1 }
    (fun x hx => by
      have := hlaters x hx
      rw [← sub64_sub64_eq_toNat] at this
      exact this)
    hbound (by dsimp only; omega)
  have hreset := @GetID_reset
    { sg with sequence := sg.sequence + 1 + laters.length } y
    (by rw [← sub64_sub64_eq_toNat] at hy; exact hy)
  rw [hcall]
  dsimp only
  rw [hstate, hshift]
  refine ⟨rfl, hbound, fun hsb => ?_, hnone, rfl, ?_, ?_⟩
  · rw [shl64_one_of_lt hsb] at hbound; exact hbound
  · exact ⟨_, congrArg Prod.fst hreset⟩
  · rw [hreset]

/-- The non-atomic failure with widths 41, 10, 1 and machine id 5: the third
call at one reading panics, so does a fourth 999,999 ns later, and the call
1,000,000 ns after the stored `lastTimestamp` returns with sequence 0. -/
theorem overflow_not_atomic_witness :
    (GetID (runState { NewSnowflakeGenerator 5 with sequenceBits := 1 }
        [1700000000000000000, 1700000000000000000]) 1700000000000000000).1 = none ∧
    (∀ r ∈ runCalls (GetID (runState { NewSnowflakeGenerator 5 with sequenceBits := 1 }
        [1700000000000000000, 1700000000000000000]) 1700000000000000000).2
        [1700000000000999999], r = none) ∧
    (GetID (runState (GetID (runState { NewSnowflakeGenerator 5 with sequenceBits := 1 }
        [1700000000000000000, 1700000000000000000]) 1700000000000000000).2
        [1700000000000999999]) 1700000000001000000).2.sequence = 0 :=
  (fun h => ⟨by decide, h.2.2.2.1, h.2.2.2.2.2.2⟩)
    (overflow_not_atomic
      (runState { NewSnowflakeGenerator 5 with sequenceBits := 1 }
        [1700000000000000000, 1700000000000000000])
      1700000000000000000 [1700000000000999999] 1700000000001000000
      (by decide) (by decide) (by decide) (by decide))

end Generators
